import Mathlib

/-!
Verification development for the tana-auto-tagger repository.

Shallow embedding of the core components:
- `LocalClassifier.classify` and `_cosine_similarity` (classifier.py)
- `TelegramSession` operations and `SessionManager` (telegram_models.py, session_manager.py)
- the `/telegram/apply` endpoint transition (api.py)
- `DateParser.parse` (date_parser.py)
- `TanaClient.is_parent_note` (tana_client.py)

Modelling conventions:
- Machine floats are modelled as rationals (`ℚ`).  The square root inside
  `np.linalg.norm` is not rational-valued, so it is passed as an explicit
  function parameter `sq : ℚ → ℚ`; concrete instances only ever evaluate it
  on perfect squares.
- numpy produces NaN (after a RuntimeWarning, not an exception) when a
  vector with zero norm is normalised; a similarity entry is therefore an
  `Option ℚ`, where `none` stands for the non-finite float (NaN) and
  `some q` for the finite value `q`.  numpy comparisons with NaN are false
  and `np.argsort` sorts NaN entries last in ascending order.
- `datetime` values are modelled as natural numbers (minutes); `timedelta
  (minutes=30)` is the constant `sessionTTL`.
- Python dicts are modelled as insertion-ordered association lists.
- Python `date` values are modelled as integers: the number of days since
  1970-01-01, computed by the standard civil-from-days algorithm.
-/

/-- Model of `models.Tag` (id, name, description, cached embedding). -/
structure Tag where
  id : String
  name : String
  description : String
  embedding : List ℚ
deriving DecidableEq, Repr

/-- Model of `models.TagSuggestion` (a tag together with its score). -/
structure TagSuggestion where
  tag : Tag
  score : ℚ
deriving DecidableEq, Repr

/-- Model of `models.Note` (id, name, content, breadcrumb, creation time). -/
structure Note where
  id : String
  name : String
  content : String
  breadcrumb : List String
  created : Option Nat
deriving DecidableEq, Repr

/-- Dot product of two vectors, `np.dot` on equal-length rational vectors. -/
def dot (a b : List ℚ) : ℚ := (List.zipWith (· * ·) a b).sum

/-- Squared euclidean norm; `np.linalg.norm v` is `sq (normSq v)` for a
square-root function `sq`. -/
def normSq (v : List ℚ) : ℚ := dot v v

/-- One entry of `LocalClassifier._cosine_similarity` (classifier.py lines
124-132): the note vector `a` and one row `b` of the tag-embedding matrix are
each divided by their norms and then dotted.  The source has no guard on the
norms: when either norm is zero, numpy's division produces NaN entries
(0/0 → NaN after a RuntimeWarning) and the dot product is NaN, modelled here
as `none`.  Otherwise the value is `(b·a) / (√(b·b) · √(a·a))`. -/
def cosEntry (sq : ℚ → ℚ) (a b : List ℚ) : Option ℚ :=
  if normSq a = 0 ∨ normSq b = 0 then none
  else some (dot b a / (sq (normSq b) * sq (normSq a)))

/-- Model of `LocalClassifier._cosine_similarity`: one similarity entry per
row of the tag-embedding matrix `B` (`np.dot(b_norm, a_norm)`). -/
def cosineSimilarity (sq : ℚ → ℚ) (a : List ℚ) (B : List (List ℚ)) :
    List (Option ℚ) :=
  B.map (fun b => cosEntry sq a b)

/-- Ascending comparison used by `np.argsort` on floats: finite values by
`≤`, NaN (`none`) sorted after every finite value. -/
def keyLe : Option ℚ → Option ℚ → Bool
  | some x, some y => decide (x ≤ y)
  | some _, none => true
  | none, some _ => false
  | none, none => true

/-- Stable insertion into a list sorted ascending by `keyLe` on the second
component: the new element goes in front of the first element it compares
`≤` to. -/
def insertAsc (x : Nat × Option ℚ) : List (Nat × Option ℚ) → List (Nat × Option ℚ)
  | [] => [x]
  | y :: ys => if keyLe x.2 y.2 then x :: y :: ys else y :: insertAsc x ys

/-- Stable ascending insertion sort on (index, key) pairs. -/
def sortAsc (l : List (Nat × Option ℚ)) : List (Nat × Option ℚ) :=
  l.foldr insertAsc []

/-- Model of `np.argsort(similarities)` (ascending, stable on ties, NaN
last): the indices of `sims` sorted by their similarity value. -/
def argsortAsc (sims : List (Option ℚ)) : List Nat :=
  (sortAsc sims.enum).map Prod.fst

/-- Model of `np.argsort(similarities)[::-1][:top_k]` (classifier.py line
110): reverse the ascending argsort and keep the first `topK` indices. -/
def topIndices (sims : List (Option ℚ)) (topK : Nat) : List Nat :=
  (argsortAsc sims).reverse.take topK

/-- The similarity array indexed at `i` (`similarities[idx]`); out-of-range
reads never occur on the code path but are mapped to NaN to keep the
function total. -/
def simAt (sims : List (Option ℚ)) (i : Nat) : Option ℚ :=
  (sims[i]?).getD none

/-- One iteration of the suggestion-building loop of `classify`
(classifier.py lines 113-120): keep `TagSuggestion(tag=self._tags[idx],
score)` when `score >= min_score`; a NaN score fails the comparison and is
dropped. -/
def suggestionAt (tags : List Tag) (sims : List (Option ℚ)) (minScore : ℚ)
    (i : Nat) : Option TagSuggestion :=
  match simAt sims i, tags[i]? with
  | some s, some t => if minScore ≤ s then some ⟨t, s⟩ else none
  | _, _ => none

/-- The suggestion-building loop of `classify` over all selected indices. -/
def buildSuggestions (tags : List Tag) (sims : List (Option ℚ)) (minScore : ℚ)
    (idxs : List Nat) : List TagSuggestion :=
  idxs.filterMap (suggestionAt tags sims minScore)

/-- Model of `LocalClassifier.classify` (classifier.py lines 71-122) after
the note text has been embedded: `tags` and `tagEmbs` are the loaded
vocabulary and its embedding matrix (`load_tags` stores one row per tag),
`noteEmb` is `self.model.encode(note_text)`.  The embedding model itself is
external (sentence-transformers), so embeddings are universally quantified
inputs here. -/
def classify (sq : ℚ → ℚ) (tags : List Tag) (tagEmbs : List (List ℚ))
    (noteEmb : List ℚ) (topK : Nat) (minScore : ℚ) : List TagSuggestion :=
  let sims := cosineSimilarity sq noteEmb tagEmbs
  buildSuggestions tags sims minScore (topIndices sims topK)

/-- Identity stand-in for the square root at perfect-square arguments 0 and
1, used by concrete evaluations (all norms in the concrete inputs are 0 or
1, where `√x = x`). -/
def sqId : ℚ → ℚ := fun x => x

/-- The cosine similarity of the unit vector `[1, 0]` with itself is exactly
`1`; used to build concrete tied-score inputs. -/
theorem cosEntry_unit : cosEntry sqId [1, 0] [1, 0] = some 1 := by
  simp [cosEntry, normSq, dot, sqId]

theorem cosineSimilarity_unit_pair :
    cosineSimilarity sqId [1, 0] [[1, 0], [1, 0]] = [some 1, some 1] := by
  simp [cosineSimilarity, cosEntry_unit]

/- Lemmas about the argsort model. -/

theorem keyLe_refl (x : Option ℚ) : keyLe x x = true := by
  cases x <;> simp [keyLe]

theorem keyLe_trans {x y z : Option ℚ} (h1 : keyLe x y = true)
    (h2 : keyLe y z = true) : keyLe x z = true := by
  cases x <;> cases y <;> cases z <;> simp_all [keyLe]
  exact le_trans h1 h2

theorem keyLe_total (x y : Option ℚ) : keyLe x y = true ∨ keyLe y x = true := by
  cases x <;> cases y <;> simp [keyLe]
  exact le_total _ _

theorem keyLe_some_some {x y : ℚ} : keyLe (some x) (some y) = true ↔ x ≤ y := by
  simp [keyLe]

theorem mem_insertAsc {x a : Nat × Option ℚ} {l : List (Nat × Option ℚ)} :
    a ∈ insertAsc x l ↔ a = x ∨ a ∈ l := by
  induction l with
  | nil => simp [insertAsc]
  | cons y ys ih =>
    by_cases h : keyLe x.2 y.2 = true
    · simp [insertAsc, h]
    · simp only [insertAsc, h]
      simp only [Bool.false_eq_true, if_false, List.mem_cons, ih]
      tauto

theorem length_insertAsc (x : Nat × Option ℚ) (l : List (Nat × Option ℚ)) :
    (insertAsc x l).length = l.length + 1 := by
  induction l with
  | nil => rfl
  | cons y ys ih =>
    by_cases h : keyLe x.2 y.2 = true <;> simp [insertAsc, h, ih]

theorem pairwise_insertAsc {x : Nat × Option ℚ} {l : List (Nat × Option ℚ)}
    (h : List.Pairwise (fun a b => keyLe a.2 b.2 = true) l) :
    List.Pairwise (fun a b => keyLe a.2 b.2 = true) (insertAsc x l) := by
  induction l with
  | nil => simp [insertAsc]
  | cons y ys ih =>
    rw [List.pairwise_cons] at h
    obtain ⟨hy, hys⟩ := h
    by_cases hxy : keyLe x.2 y.2 = true
    · simp only [insertAsc, hxy, if_true]
      refine List.Pairwise.cons ?_ (List.Pairwise.cons hy hys)
      intro z hz
      rcases List.mem_cons.mp hz with rfl | hz
      · exact hxy
      · exact keyLe_trans hxy (hy z hz)
    · simp only [insertAsc, hxy, Bool.false_eq_true, if_false]
      refine List.Pairwise.cons ?_ (ih hys)
      intro z hz
      rcases mem_insertAsc.mp hz with rfl | hz
      · rcases keyLe_total z.2 y.2 with h | h
        · exact absurd h hxy
        · exact h
      · exact hy z hz

theorem sortAsc_pairwise (l : List (Nat × Option ℚ)) :
    List.Pairwise (fun a b => keyLe a.2 b.2 = true) (sortAsc l) := by
  induction l with
  | nil => simp [sortAsc]
  | cons x xs ih => exact pairwise_insertAsc ih

theorem sortAsc_length (l : List (Nat × Option ℚ)) :
    (sortAsc l).length = l.length := by
  induction l with
  | nil => rfl
  | cons x xs ih =>
    show (insertAsc x (sortAsc xs)).length = xs.length + 1
    rw [length_insertAsc, ih]

theorem sortAsc_mem {a : Nat × Option ℚ} {l : List (Nat × Option ℚ)} :
    a ∈ sortAsc l ↔ a ∈ l := by
  induction l with
  | nil => simp [sortAsc]
  | cons x xs ih =>
    show a ∈ insertAsc x (sortAsc xs) ↔ _
    rw [mem_insertAsc, List.mem_cons, ih]

theorem sublist_insertAsc (x : Nat × Option ℚ) (l : List (Nat × Option ℚ)) :
    List.Sublist l (insertAsc x l) := by
  induction l with
  | nil => exact List.nil_sublist _
  | cons y ys ih =>
    by_cases h : keyLe x.2 y.2 = true
    · simp only [insertAsc, h, if_true]
      exact List.sublist_cons_self _ _
    · simp only [insertAsc, h, Bool.false_eq_true, if_false]
      exact ih.cons₂ y

theorem insertAsc_before {x b : Nat × Option ℚ} {l : List (Nat × Option ℚ)}
    (hb : b ∈ l) (hk : keyLe x.2 b.2 = true) :
    List.Sublist [x, b] (insertAsc x l) := by
  induction l with
  | nil => cases hb
  | cons y ys ih =>
    by_cases h : keyLe x.2 y.2 = true
    · simp only [insertAsc, h, if_true]
      exact (List.singleton_sublist.mpr hb).cons₂ x
    · simp only [insertAsc, h, Bool.false_eq_true, if_false]
      rcases List.mem_cons.mp hb with rfl | hb
      · exact absurd hk h
      · exact (ih hb).cons y

theorem sortAsc_stable {a b : Nat × Option ℚ} {l : List (Nat × Option ℚ)}
    (hs : List.Sublist [a, b] l) (hk : keyLe a.2 b.2 = true) :
    List.Sublist [a, b] (sortAsc l) := by
  induction l with
  | nil => cases hs
  | cons x xs ih =>
    cases hs with
    | cons _ h => exact (ih h).trans (sublist_insertAsc x (sortAsc xs))
    | cons₂ _ h =>
      exact insertAsc_before (sortAsc_mem.mpr (List.singleton_sublist.mp h)) hk

theorem pair_sublist_of_getElem {α : Type} {l : List α} {i j : Nat} {a b : α}
    (hij : i < j) (hi : l[i]? = some a) (hj : l[j]? = some b) :
    List.Sublist [a, b] l := by
  induction l generalizing i j with
  | nil => simp at hi
  | cons x xs ih =>
    cases i with
    | zero =>
      simp only [List.getElem?_cons_zero, Option.some.injEq] at hi
      subst hi
      cases j with
      | zero => omega
      | succ j' =>
        simp only [List.getElem?_cons_succ] at hj
        have hbm : b ∈ xs := List.getElem?_mem hj
        exact (List.singleton_sublist.mpr hbm).cons₂ x
    | succ i' =>
      cases j with
      | zero => omega
      | succ j' =>
        simp only [List.getElem?_cons_succ] at hi hj
        exact (ih (by omega) hi hj).cons x

theorem suggestionAt_spec {tags : List Tag} {sims : List (Option ℚ)} {m : ℚ}
    {i : Nat} {u : TagSuggestion} (h : suggestionAt tags sims m i = some u) :
    simAt sims i = some u.score ∧ m ≤ u.score := by
  unfold suggestionAt at h
  split at h
  next s t hs ht =>
    split at h
    next hm =>
      cases h
      exact ⟨hs, hm⟩
    next hm => cases h
  next => cases h

theorem mem_buildSuggestions_min {tags : List Tag} {sims : List (Option ℚ)}
    {m : ℚ} {idxs : List Nat} {u : TagSuggestion}
    (h : u ∈ buildSuggestions tags sims m idxs) : m ≤ u.score := by
  unfold buildSuggestions at h
  obtain ⟨i, _, hi⟩ := List.mem_filterMap.mp h
  exact (suggestionAt_spec hi).2

theorem length_topIndices (sims : List (Option ℚ)) (k : Nat) :
    (topIndices sims k).length = min k sims.length := by
  unfold topIndices argsortAsc
  rw [List.length_take, List.length_reverse, List.length_map, sortAsc_length,
    List.enum_length]

theorem pairwise_topIndices (sims : List (Option ℚ)) (k : Nat) :
    List.Pairwise (fun i j => keyLe (simAt sims j) (simAt sims i) = true)
      (topIndices sims k) := by
  have h1 : List.Pairwise (fun a b : Nat × Option ℚ => keyLe b.2 a.2 = true)
      (sortAsc sims.enum).reverse :=
    List.pairwise_reverse.mpr (sortAsc_pairwise sims.enum)
  have h2 : List.Pairwise (fun a b : Nat × Option ℚ => keyLe b.2 a.2 = true)
      ((sortAsc sims.enum).reverse.take k) :=
    h1.sublist (List.take_sublist _ _)
  have hmem : ∀ p ∈ (sortAsc sims.enum).reverse.take k, simAt sims p.1 = p.2 := by
    intro p hp
    have hpe : p ∈ sims.enum :=
      sortAsc_mem.mp (List.mem_reverse.mp (List.mem_of_mem_take hp))
    have hg : sims[p.1]? = some p.2 := by
      have : (p.1, p.2) ∈ sims.enum := by
        rw [show (p.1, p.2) = p from rfl]
        exact hpe
      exact List.mk_mem_enum_iff_getElem?.mp this
    simp [simAt, hg]
  have hrw : topIndices sims k = ((sortAsc sims.enum).reverse.take k).map Prod.fst := by
    unfold topIndices argsortAsc
    rw [← List.map_reverse, List.map_take]
  rw [hrw, List.pairwise_map]
  refine h2.imp_of_mem ?_
  intro a b ha hb hk
  rw [hmem a ha, hmem b hb]
  exact hk

theorem pairwise_buildSuggestions {tags : List Tag} {sims : List (Option ℚ)}
    {m : ℚ} {idxs : List Nat}
    (h : List.Pairwise (fun i j => keyLe (simAt sims j) (simAt sims i) = true) idxs) :
    List.Pairwise (fun a b : TagSuggestion => b.score ≤ a.score)
      (buildSuggestions tags sims m idxs) := by
  unfold buildSuggestions
  refine List.pairwise_filterMap.mpr (h.imp ?_)
  intro i j hk u hu v hv
  obtain ⟨hsu, _⟩ := suggestionAt_spec hu
  obtain ⟨hsv, _⟩ := suggestionAt_spec hv
  rw [hsu, hsv] at hk
  exact keyLe_some_some.mp hk

/-- C1.  The claim asserts strictly descending scores; the code at
classifier.py line 110 reverses an ascending argsort, so tied labels (equal
embeddings give exactly equal scores) produce equal adjacent scores in the
output.  The amended property holds: for every vocabulary and note embedding,
`classify` returns at most `min(topK, |V|)` suggestions, ordered descending
(non-strictly) by score, with every retained score at least `minScore`;
fewer than `topK` results, including none, is possible. -/
theorem c1_classify_bounded_sorted_threshold (sq : ℚ → ℚ) (tags : List Tag)
    (tagEmbs : List (List ℚ)) (noteEmb : List ℚ) (k : Nat) (m : ℚ)
    (hlen : tagEmbs.length = tags.length) :
    (classify sq tags tagEmbs noteEmb k m).length ≤ min k tags.length ∧
    List.Pairwise (fun a b : TagSuggestion => b.score ≤ a.score)
      (classify sq tags tagEmbs noteEmb k m) ∧
    ∀ u ∈ classify sq tags tagEmbs noteEmb k m, m ≤ u.score := by
  refine ⟨?_, ?_, ?_⟩
  · show (buildSuggestions _ _ _ _).length ≤ _
    calc (buildSuggestions tags (cosineSimilarity sq noteEmb tagEmbs) m
            (topIndices (cosineSimilarity sq noteEmb tagEmbs) k)).length
        ≤ (topIndices (cosineSimilarity sq noteEmb tagEmbs) k).length :=
          List.length_filterMap_le _ _
      _ = min k (cosineSimilarity sq noteEmb tagEmbs).length :=
          length_topIndices _ _
      _ = min k tags.length := by
          unfold cosineSimilarity
          rw [List.length_map, hlen]
  · exact pairwise_buildSuggestions (pairwise_topIndices _ _)
  · intro u hu
    exact mem_buildSuggestions_min hu

/-- Concrete two-label vocabulary used by the tied-score counterexamples. -/
def tagA : Tag := ⟨"a", "a", "", []⟩

def tagB : Tag := ⟨"b", "b", "", []⟩

/-- With two identical label embeddings the two similarity scores are
exactly equal, and `classify` emits the second vocabulary entry first:
ascending stable argsort puts index 0 before index 1, and the `[::-1]`
reversal flips them. -/
theorem classify_tied_eval :
    classify sqId [tagA, tagB] [[1, 0], [1, 0]] [1, 0] 2 0
      = [⟨tagB, 1⟩, ⟨tagA, 1⟩] := by
  simp only [classify, cosineSimilarity_unit_pair]
  decide

/-- C1 counterexample: with the vocabulary `[tagA, tagB]` embedded
identically, the two output scores are both `1`, so the output is not
strictly descending by score. -/
theorem c1_counterexample :
    ¬ List.Pairwise (fun a b : TagSuggestion => b.score < a.score)
        (classify sqId [tagA, tagB] [[1, 0], [1, 0]] [1, 0] 2 0) := by
  rw [classify_tied_eval]
  decide

theorem c1_witness :
    ([[(1 : ℚ), 0], [1, 0]].length = [tagA, tagB].length) ∧
    ((classify sqId [tagA, tagB] [[1, 0], [1, 0]] [1, 0] 2 0).length
        ≤ min 2 [tagA, tagB].length ∧
      List.Pairwise (fun a b : TagSuggestion => b.score ≤ a.score)
        (classify sqId [tagA, tagB] [[1, 0], [1, 0]] [1, 0] 2 0) ∧
      ∀ u ∈ classify sqId [tagA, tagB] [[1, 0], [1, 0]] [1, 0] 2 0,
        (0 : ℚ) ≤ u.score) :=
  ⟨rfl, c1_classify_bounded_sorted_threshold sqId [tagA, tagB]
    [[1, 0], [1, 0]] [1, 0] 2 0 rfl⟩

/-- C2.  The claim asserts that tied labels appear in original vocabulary
order; in fact `np.argsort(similarities)[::-1]` (classifier.py line 110)
places tied labels in REVERSE vocabulary order: the ascending argsort is
stable (earlier index first among equal keys), and the subsequent reversal
flips each tied group.  Amended property: whenever positions `i < j` hold
the same similarity value, index `j` precedes index `i` in the reversed
argsort order that `classify` consumes. -/
theorem c2_tied_scores_reverse_order (sims : List (Option ℚ)) (i j : Nat)
    (v : Option ℚ) (hij : i < j) (hi : sims[i]? = some v)
    (hj : sims[j]? = some v) :
    List.Sublist [j, i] (argsortAsc sims).reverse := by
  have hei : sims.enum[i]? = some (i, v) := by
    rw [List.getElem?_enum, hi]
    rfl
  have hej : sims.enum[j]? = some (j, v) := by
    rw [List.getElem?_enum, hj]
    rfl
  have hsorted : List.Sublist [(i, v), (j, v)] (sortAsc sims.enum) :=
    sortAsc_stable (pair_sublist_of_getElem hij hei hej) (keyLe_refl v)
  have hmap : List.Sublist [i, j] (argsortAsc sims) := by
    simpa [argsortAsc] using hsorted.map Prod.fst
  simpa using hmap.reverse

/-- C2 counterexample: the two labels tie (both scores are `1`), yet the
suggestions list the second vocabulary entry first, not the original
vocabulary order. -/
theorem c2_counterexample :
    (classify sqId [tagA, tagB] [[1, 0], [1, 0]] [1, 0] 2 0).map
        (fun u => u.tag) ≠ [tagA, tagB] ∧
    classify sqId [tagA, tagB] [[1, 0], [1, 0]] [1, 0] 2 0
      = [⟨tagB, 1⟩, ⟨tagA, 1⟩] := by
  rw [classify_tied_eval]
  exact ⟨by decide, rfl⟩

theorem c2_witness :
    List.Sublist [1, 0] (argsortAsc [some 1, some 1]).reverse :=
  c2_tied_scores_reverse_order [some 1, some 1] 0 1 (some 1) (by decide)
    rfl rfl

/-- C3.  The division by the vector norm in `_cosine_similarity`
(classifier.py lines 128-129) is NOT guarded against a zero norm: a
zero-norm note embedding or label embedding makes numpy emit NaN similarity
entries (modelled `none`) instead of a documented fallback score, and a
zero-norm note embedding therefore yields no suggestion at all from
`classify` regardless of the threshold.  This theorem evaluates the code at
the failing inputs. -/
theorem c3_zero_norm_unguarded :
    ∀ sq : ℚ → ℚ,
      cosineSimilarity sq [0, 0] [[1, 0]] = [none] ∧
      cosineSimilarity sq [1, 0] [[0, 0]] = [none] ∧
      ∀ t : Tag, classify sq [t] [[1, 0]] [0, 0] 3 0 = [] := by
  intro sq
  have hz : normSq [(0 : ℚ), 0] = 0 := by simp [normSq, dot]
  have h1 : cosEntry sq [0, 0] [1, 0] = none := by simp [cosEntry, hz]
  have h2 : cosEntry sq [1, 0] [0, 0] = none := by simp [cosEntry, hz]
  refine ⟨by simp [cosineSimilarity, h1], by simp [cosineSimilarity, h2], ?_⟩
  intro t
  show buildSuggestions _ (cosineSimilarity sq [0, 0] [[1, 0]]) _ _ = _
  rw [show cosineSimilarity sq [0, 0] [[1, 0]] = [none] by
    simp [cosineSimilarity, h1]]
  rfl

/-!
Session model: `telegram_models.TelegramSession` and
`session_manager.SessionManager`.  Time is in minutes; `datetime.now()` is
an explicit `now : Nat` argument threaded through each operation.  Python
dicts are insertion-ordered association lists with the operations below.
-/

/-- Python dict lookup (`d.get(k)`): first entry with the key. -/
def alGet {K V : Type} [DecidableEq K] (k : K) : List (K × V) → Option V
  | [] => none
  | (k1, v) :: t => if k1 = k then some v else alGet k t

/-- Python dict update (`d[k] = v`): replace in place, else append. -/
def alSet {K V : Type} [DecidableEq K] (k : K) (v : V) :
    List (K × V) → List (K × V)
  | [] => [(k, v)]
  | (k1, v1) :: t => if k1 = k then (k, v) :: t else (k1, v1) :: alSet k v t

/-- Python dict deletion (`del d[k]`): drop the entry with the key. -/
def alErase {K V : Type} [DecidableEq K] (k : K) (l : List (K × V)) :
    List (K × V) :=
  l.filter (fun p => decide (p.1 ≠ k))

/-- Python dict membership (`k in d`). -/
def alContains {K V : Type} [DecidableEq K] (k : K) (l : List (K × V)) : Bool :=
  (alGet k l).isSome

/-- Model of `telegram_models.SessionState` (finite state machine states). -/
inductive SessionState where
  | idle
  | syncing
  | classifying
  | reviewing
  | applying
deriving DecidableEq, Repr

/-- Session TTL: `timedelta(minutes=30)`. -/
def sessionTTL : Nat := 30

/-- Model of `telegram_models.TelegramSession`.  `session_id` (a uuid4 in
the source) and the `datetime.now()` fields are explicit data. -/
structure TelegramSession where
  user_id : Int
  username : String
  state : SessionState
  date_range : Option (Option Int × Option Int)
  notes : List Note
  suggestions : List (String × List TagSuggestion)
  approved : List (String × String)
  message_id : Option Nat
  session_id : String
  created_at : Nat
  updated_at : Nat
  expires_at : Option Nat
deriving DecidableEq, Repr

/-- Model of `TelegramSession.touch` (telegram_models.py lines 46-50):
update the activity timestamp and extend expiration by the TTL. -/
def touch (now : Nat) (s : TelegramSession) : TelegramSession :=
  { s with updated_at := now, expires_at := some (now + sessionTTL) }

/-- Model of `TelegramSession.is_expired` (lines 52-56):
`datetime.now() > expires_at`, `False` when `expires_at` is `None`. -/
def is_expired (now : Nat) (s : TelegramSession) : Bool :=
  match s.expires_at with
  | none => false
  | some e => decide (e < now)

/-- Model of `TelegramSession.set_state` (lines 58-61). -/
def set_state (now : Nat) (st : SessionState) (s : TelegramSession) :
    TelegramSession :=
  touch now { s with state := st }

/-- Model of `TelegramSession.approve_suggestion` (lines 63-66): upsert
into the approved map, then touch. -/
def approve_suggestion (now : Nat) (note_id tag_id : String)
    (s : TelegramSession) : TelegramSession :=
  touch now { s with approved := alSet note_id tag_id s.approved }

/-- Model of `TelegramSession.unapprove_note` (lines 68-72): delete the
approval when present, then touch unconditionally. -/
def unapprove_note (now : Nat) (note_id : String) (s : TelegramSession) :
    TelegramSession :=
  touch now
    { s with approved :=
        if alContains note_id s.approved then alErase note_id s.approved
        else s.approved }

/-- Model of the two indices held by `session_manager.SessionManager`:
`_sessions : session_id -> session` and `_user_sessions : user_id ->
session_id`. -/
structure ManagerState where
  sessions : List (String × TelegramSession)
  userSessions : List (Int × String)
deriving DecidableEq, Repr

/-- Model of `SessionManager.delete_session` (session_manager.py lines
53-63): remove from `_sessions`, and from `_user_sessions` only when the
user index still points at this very session. -/
def delete_session (sid : String) (st : ManagerState) : ManagerState × Bool :=
  match alGet sid st.sessions with
  | none => (st, false)
  | some s =>
    ({ sessions := alErase sid st.sessions,
       userSessions :=
         if alGet s.user_id st.userSessions = some sid
         then alErase s.user_id st.userSessions
         else st.userSessions }, true)

/-- Model of `SessionManager.cleanup_user_sessions` (lines 65-76): delete
every session owned by the user, then drop the user-index entry. -/
def cleanup_user_sessions (uid : Int) (st : ManagerState) : ManagerState :=
  let toDelete :=
    (st.sessions.filter (fun p => decide (p.2.user_id = uid))).map Prod.fst
  let st1 := toDelete.foldl (fun acc sid => (delete_session sid acc).1) st
  if alContains uid st1.userSessions
  then { st1 with userSessions := alErase uid st1.userSessions }
  else st1

/-- Model of `SessionManager.create_session` (lines 21-35): clean up the
user's sessions, build a fresh session (uuid `sid`, `created_at =
updated_at = now`, `expires_at = now + TTL` from `__post_init__`), and
index it by both keys. -/
def create_session (now : Nat) (sid : String) (uid : Int) (uname : String)
    (st : ManagerState) : ManagerState × TelegramSession :=
  let st1 := cleanup_user_sessions uid st
  let s : TelegramSession :=
    { user_id := uid, username := uname, state := SessionState.idle,
      date_range := none, notes := [], suggestions := [], approved := [],
      message_id := none, session_id := sid, created_at := now,
      updated_at := now, expires_at := some (now + sessionTTL) }
  ({ sessions := alSet sid s st1.sessions,
     userSessions := alSet uid sid st1.userSessions }, s)

/-- Model of `SessionManager.get_session` (lines 37-44): lazy expiry — an
expired session is deleted as a side effect and reported absent. -/
def get_session (now : Nat) (sid : String) (st : ManagerState) :
    ManagerState × Option TelegramSession :=
  match alGet sid st.sessions with
  | none => (st, none)
  | some s =>
    if is_expired now s then ((delete_session sid st).1, none)
    else (st, some s)

/-- Model of `SessionManager.get_user_session` (lines 46-51): look the
session id up in the user index, then defer to `get_session`. -/
def get_user_session (now : Nat) (uid : Int) (st : ManagerState) :
    ManagerState × Option TelegramSession :=
  match alGet uid st.userSessions with
  | none => (st, none)
  | some sid => get_session now sid st

/-- Model of the `/telegram/apply/{session_id}` endpoint
(api.py lines 437-474).  The external apply action (the body of the try
block) is abstracted by `applyOk`; on success each approved entry counts as
applied and the session is deleted, on failure (an exception after
`appliedAtFailure` iterations) the session is put back to `REVIEWING` and
survives.  The response is `none` for HTTP 404 (absent/expired session),
otherwise `some (success, applied_count)`. -/
def apply_telegram_suggestions (now : Nat) (sid : String)
    (requestApproved : List (String × String)) (applyOk : Bool)
    (appliedAtFailure : Nat) (st : ManagerState) :
    ManagerState × Option (Bool × Nat) :=
  match get_session now sid st with
  | (st1, none) => (st1, none)
  | (st1, some s) =>
    let s1 := set_state now SessionState.applying s
    let st2 : ManagerState := { st1 with sessions := alSet sid s1 st1.sessions }
    if applyOk then
      ((delete_session sid st2).1, some (true, requestApproved.length))
    else
      let s2 := set_state now SessionState.reviewing s1
      ({ st2 with sessions := alSet sid s2 st2.sessions },
        some (false, appliedAtFailure))

/- Association-list lemmas. -/

theorem alGet_set_self {K V : Type} [DecidableEq K] (k : K) (v : V)
    (l : List (K × V)) : alGet k (alSet k v l) = some v := by
  induction l with
  | nil => simp [alSet, alGet]
  | cons p t ih =>
    by_cases h : p.1 = k
    · simp [alSet, h, alGet]
    · simp [alSet, h, alGet, ih]

theorem alGet_erase_self {K V : Type} [DecidableEq K] (k : K)
    (l : List (K × V)) : alGet k (alErase k l) = none := by
  induction l with
  | nil => rfl
  | cons p t ih =>
    by_cases h : p.1 = k
    · simpa [alErase, h] using ih
    · simpa [alErase, alGet, h] using ih

theorem alErase_of_get_none {K V : Type} [DecidableEq K] {k : K}
    {l : List (K × V)} (h : alGet k l = none) : alErase k l = l := by
  induction l with
  | nil => rfl
  | cons p t ih =>
    by_cases hp : p.1 = k
    · simp [alGet, hp] at h
    · have ht : alGet k t = none := by simpa [alGet, hp] using h
      simp [alErase, hp] at ih ⊢
      exact ih ht

theorem alSet_of_get_none {K V : Type} [DecidableEq K] {k : K} (v : V)
    {l : List (K × V)} (h : alGet k l = none) : alSet k v l = l ++ [(k, v)] := by
  induction l with
  | nil => rfl
  | cons p t ih =>
    by_cases hp : p.1 = k
    · simp [alGet, hp] at h
    · simp only [alSet, hp, if_neg, List.cons_append]
      rw [ih (by simpa [alGet, hp] using h)]
      simp

theorem mem_alErase {K V : Type} [DecidableEq K] {k : K} {p : K × V}
    {l : List (K × V)} : p ∈ alErase k l ↔ p ∈ l ∧ p.1 ≠ k := by
  simp [alErase]

theorem alErase_append_last {K V : Type} [DecidableEq K] (k : K) (v : V)
    (l : List (K × V)) : alErase k (l ++ [(k, v)]) = alErase k l := by
  simp [alErase, List.filter_append]

/-- C4.  A session whose last activity plus the 30-minute TTL lies before
`now` is reported absent by `get_session` and by `get_user_session`, and
both calls physically remove it from the session index and from the user
index, so every subsequent lookup by session id or by user id also
misses. -/
theorem c4_expired_lookup_misses_and_removes (st : ManagerState) (now : Nat)
    (sid : String) (s : TelegramSession)
    (hs : alGet sid st.sessions = some s)
    (hu : alGet s.user_id st.userSessions = some sid)
    (hexp : s.expires_at = some (s.updated_at + sessionTTL))
    (hlate : s.updated_at + sessionTTL < now) :
    (get_session now sid st).2 = none ∧
    (get_user_session now s.user_id st).2 = none ∧
    alGet sid (get_session now sid st).1.sessions = none ∧
    alGet s.user_id (get_session now sid st).1.userSessions = none ∧
    alGet sid (get_user_session now s.user_id st).1.sessions = none ∧
    alGet s.user_id (get_user_session now s.user_id st).1.userSessions = none ∧
    ∀ now2 : Nat,
      (get_session now2 sid (get_session now sid st).1).2 = none ∧
      (get_user_session now2 s.user_id (get_session now sid st).1).2 = none := by
  have hex : is_expired now s = true := by
    simp [is_expired, hexp]
    omega
  have hdel : (delete_session sid st).1 =
      { sessions := alErase sid st.sessions,
        userSessions := alErase s.user_id st.userSessions } := by
    unfold delete_session
    rw [hs]
    simp [hu]
  have hget : get_session now sid st =
      ({ sessions := alErase sid st.sessions,
         userSessions := alErase s.user_id st.userSessions }, none) := by
    simp only [get_session, hs, hex, if_true, hdel]
  have huser : get_user_session now s.user_id st =
      ({ sessions := alErase sid st.sessions,
         userSessions := alErase s.user_id st.userSessions }, none) := by
    simp only [get_user_session, hu]
    exact hget
  refine ⟨by rw [hget], by rw [huser], ?_, ?_, ?_, ?_, ?_⟩
  · rw [hget]
    exact alGet_erase_self sid st.sessions
  · rw [hget]
    exact alGet_erase_self s.user_id st.userSessions
  · rw [huser]
    exact alGet_erase_self sid st.sessions
  · rw [huser]
    exact alGet_erase_self s.user_id st.userSessions
  · intro now2
    rw [hget]
    constructor
    · simp only [get_session, alGet_erase_self]
    · simp only [get_user_session, alGet_erase_self]

/-- Idle live session used by concrete registry states. -/
def sessionIdle : TelegramSession :=
  { user_id := 7, username := "u", state := SessionState.idle,
    date_range := none, notes := [], suggestions := [], approved := [],
    message_id := none, session_id := "sid1", created_at := 0,
    updated_at := 0, expires_at := some sessionTTL }

theorem c4_witness :
    (get_session 31 "sid1"
      ⟨[("sid1", sessionIdle)], [(7, "sid1")]⟩).2 = none ∧
    (get_user_session 31 7
      ⟨[("sid1", sessionIdle)], [(7, "sid1")]⟩).2 = none ∧
    alGet "sid1" (get_session 31 "sid1"
      ⟨[("sid1", sessionIdle)], [(7, "sid1")]⟩).1.sessions = none ∧
    alGet (7 : Int) (get_session 31 "sid1"
      ⟨[("sid1", sessionIdle)], [(7, "sid1")]⟩).1.userSessions = none ∧
    alGet "sid1" (get_user_session 31 7
      ⟨[("sid1", sessionIdle)], [(7, "sid1")]⟩).1.sessions = none ∧
    alGet (7 : Int) (get_user_session 31 7
      ⟨[("sid1", sessionIdle)], [(7, "sid1")]⟩).1.userSessions = none ∧
    ∀ now2 : Nat,
      (get_session now2 "sid1" (get_session 31 "sid1"
        ⟨[("sid1", sessionIdle)], [(7, "sid1")]⟩).1).2 = none ∧
      (get_user_session now2 7 (get_session 31 "sid1"
        ⟨[("sid1", sessionIdle)], [(7, "sid1")]⟩).1).2 = none :=
  c4_expired_lookup_misses_and_removes
    ⟨[("sid1", sessionIdle)], [(7, "sid1")]⟩ 31 "sid1" sessionIdle
    rfl rfl rfl (by decide)

theorem delete_session_sessions (sid : String) (st : ManagerState) :
    ((delete_session sid st).1).sessions = alErase sid st.sessions := by
  cases h : alGet sid st.sessions with
  | none =>
    simp only [delete_session, h]
    exact (alErase_of_get_none h).symm
  | some s => simp only [delete_session, h]

theorem foldl_delete_mem (sids : List String) (st : ManagerState)
    (p : String × TelegramSession) :
    p ∈ (sids.foldl (fun acc sid => (delete_session sid acc).1) st).sessions ↔
      p ∈ st.sessions ∧ p.1 ∉ sids := by
  induction sids generalizing st with
  | nil => simp
  | cons sid rest ih =>
    rw [List.foldl_cons, ih, delete_session_sessions, mem_alErase,
      List.mem_cons]
    tauto

theorem cleanup_no_user (uid : Int) (st : ManagerState) :
    ∀ p ∈ (cleanup_user_sessions uid st).sessions, p.2.user_id ≠ uid := by
  intro p hp heq
  simp only [cleanup_user_sessions] at hp
  have hp1 : p ∈ (((st.sessions.filter
      (fun p => decide (p.2.user_id = uid))).map Prod.fst).foldl
      (fun acc sid => (delete_session sid acc).1) st).sessions := by
    split at hp
    · exact hp
    · exact hp
  rw [foldl_delete_mem] at hp1
  obtain ⟨hmem, hnotin⟩ := hp1
  exact hnotin (List.mem_map.mpr ⟨p,
    List.mem_filter.mpr ⟨hmem, by simp [heq]⟩, rfl⟩)

theorem alSet_filter_single {K V : Type} [DecidableEq K] {q : K × V → Bool}
    {l : List (K × V)} (hl : ∀ p ∈ l, q p = false) {k : K} {v : V}
    (hq : q (k, v) = true) : (alSet k v l).filter q = [(k, v)] := by
  induction l with
  | nil => simp [alSet, hq]
  | cons p t ih =>
    have hp := hl p (List.mem_cons_self p t)
    by_cases hk : p.1 = k
    · have ht : t.filter q = [] := List.filter_eq_nil_iff.mpr
        (fun x hx => by simp [hl x (List.mem_cons_of_mem _ hx)])
      simp [alSet, hk, hq, hp, ht]
    · have ht := ih (fun x hx => hl x (List.mem_cons_of_mem _ hx))
      simp [alSet, hk, hp, ht]

theorem create_session_spec (now : Nat) (sid : String) (uid : Int)
    (un : String) (st : ManagerState) :
    ((create_session now sid uid un st).1.sessions.filter
        (fun p => decide (p.2.user_id = uid))).length = 1 ∧
    alGet uid (create_session now sid uid un st).1.userSessions = some sid ∧
    alGet sid (create_session now sid uid un st).1.sessions
      = some (create_session now sid uid un st).2 ∧
    (create_session now sid uid un st).2.expires_at
      = some (now + sessionTTL) := by
  refine ⟨?_, ?_, ?_, rfl⟩
  · show ((alSet sid _ (cleanup_user_sessions uid st).sessions).filter _).length = 1
    rw [alSet_filter_single
      (fun p hp => by simp [cleanup_no_user uid st p hp]) (by simp)]
    rfl
  · exact alGet_set_self uid sid _
  · exact alGet_set_self sid _ _

/-- C5.  `create` first deletes every session owned by the user and then
indexes a fresh one, so after `create(u, ...)` twice exactly one session
owned by `u` is stored, the user index points at the second session, and a
lookup by user before that session expires retrieves exactly the second
session. -/
theorem c5_create_twice_single_session (st : ManagerState)
    (now1 now2 now3 : Nat) (sid1 sid2 : String) (uid : Int) (un1 un2 : String)
    (hnow : now3 ≤ now2 + sessionTTL) :
    (((create_session now2 sid2 uid un2
        (create_session now1 sid1 uid un1 st).1).1).sessions.filter
        (fun p => decide (p.2.user_id = uid))).length = 1 ∧
    alGet uid ((create_session now2 sid2 uid un2
        (create_session now1 sid1 uid un1 st).1).1).userSessions
      = some sid2 ∧
    (get_user_session now3 uid (create_session now2 sid2 uid un2
        (create_session now1 sid1 uid un1 st).1).1).2
      = some (create_session now2 sid2 uid un2
        (create_session now1 sid1 uid un1 st).1).2 := by
  obtain ⟨h1, h2, h3, h4⟩ := create_session_spec now2 sid2 uid un2
    (create_session now1 sid1 uid un1 st).1
  refine ⟨h1, h2, ?_⟩
  have hexp : is_expired now3 (create_session now2 sid2 uid un2
      (create_session now1 sid1 uid un1 st).1).2 = false := by
    simp [is_expired, h4]
    omega
  simp [get_user_session, h2, get_session, h3, hexp]

theorem c5_witness :
    (((create_session 1 "b" 7 "v"
        (create_session 0 "a" 7 "u" ⟨[], []⟩).1).1).sessions.filter
        (fun p => decide (p.2.user_id = 7))).length = 1 ∧
    alGet (7 : Int) ((create_session 1 "b" 7 "v"
        (create_session 0 "a" 7 "u" ⟨[], []⟩).1).1).userSessions
      = some "b" ∧
    (get_user_session 5 7 (create_session 1 "b" 7 "v"
        (create_session 0 "a" 7 "u" ⟨[], []⟩).1).1).2
      = some (create_session 1 "b" 7 "v"
        (create_session 0 "a" 7 "u" ⟨[], []⟩).1).2 :=
  c5_create_twice_single_session ⟨[], []⟩ 0 1 5 "a" "b" 7 "u" "v" (by decide)

/-- C6.  The claim asserts the approve/unapprove round trip restores the
approved map for EVERY live session; it fails when the note already had an
approval: `approve` overwrites the old entry and `unapprove` deletes the
entry outright, so the prior approval is lost.  Amended property: when the
note has no prior approval, `approve(n, t)` followed by `unapprove(n)`
returns the approved map exactly to its prior state. -/
theorem c6_approve_unapprove_roundtrip (s : TelegramSession)
    (now1 now2 : Nat) (nid tid : String)
    (h : alGet nid s.approved = none) :
    (unapprove_note now2 nid (approve_suggestion now1 nid tid s)).approved
      = s.approved := by
  unfold approve_suggestion unapprove_note touch
  simp only
  rw [alSet_of_get_none tid h]
  have hc : alContains nid (s.approved ++ [(nid, tid)]) = true := by
    rw [← alSet_of_get_none tid h]
    simp [alContains, alGet_set_self]
  rw [if_pos hc, alErase_append_last, alErase_of_get_none h]

/-- Session with a pre-existing approval for note "n"; the C6
counterexample input. -/
def sessionApproved : TelegramSession :=
  { user_id := 7, username := "u", state := SessionState.reviewing,
    date_range := none, notes := [], suggestions := [],
    approved := [("n", "t0")], message_id := none, session_id := "sid1",
    created_at := 0, updated_at := 0, expires_at := some sessionTTL }

/-- C6 counterexample: on a session where note "n" is already approved with
"t0", approving "t1" and then unapproving leaves the approved map empty,
not in its prior state `[("n", "t0")]`. -/
theorem c6_counterexample :
    (unapprove_note 2 "n" (approve_suggestion 1 "n" "t1"
      sessionApproved)).approved ≠ sessionApproved.approved := by
  decide

theorem c6_witness :
    (unapprove_note 2 "n" (approve_suggestion 1 "n" "t1"
      sessionIdle)).approved = sessionIdle.approved :=
  c6_approve_unapprove_roundtrip sessionIdle 1 2 "n" "t1" rfl

/-- C7.  From a live session, the apply endpoint first moves the session to
`APPLYING`; on success it deletes the session, which is then no longer
retrievable by any later `get_session`; on failure it transitions the
session back to `REVIEWING` with its approved map unchanged, and the
session remains stored and retrievable. -/
theorem c7_apply_success_deletes_failure_reverts (st : ManagerState)
    (now : Nat) (sid : String) (s : TelegramSession)
    (req : List (String × String)) (fcount : Nat)
    (hs : alGet sid st.sessions = some s)
    (hlive : is_expired now s = false) :
    ((apply_telegram_suggestions now sid req true fcount st).2
        = some (true, req.length) ∧
      alGet sid (apply_telegram_suggestions now sid req true fcount
        st).1.sessions = none ∧
      ∀ n2 : Nat, (get_session n2 sid (apply_telegram_suggestions now sid req
        true fcount st).1).2 = none) ∧
    ((apply_telegram_suggestions now sid req false fcount st).2
        = some (false, fcount) ∧
      alGet sid (apply_telegram_suggestions now sid req false fcount
          st).1.sessions
        = some (set_state now SessionState.reviewing
            (set_state now SessionState.applying s)) ∧
      (set_state now SessionState.reviewing
        (set_state now SessionState.applying s)).approved = s.approved ∧
      (set_state now SessionState.reviewing
        (set_state now SessionState.applying s)).state
        = SessionState.reviewing ∧
      (get_session now sid (apply_telegram_suggestions now sid req false
          fcount st).1).2
        = some (set_state now SessionState.reviewing
            (set_state now SessionState.applying s))) := by
  have hget : get_session now sid st = (st, some s) := by
    simp [get_session, hs, hlive]
  constructor
  · have hdel : (apply_telegram_suggestions now sid req true fcount st).1
        = (delete_session sid
            { st with sessions := (alSet sid
              (set_state now SessionState.applying s) st.sessions) }).1 := by
      simp [apply_telegram_suggestions, hget]
    have hget1 : alGet sid (alSet sid
        (set_state now SessionState.applying s) st.sessions)
        = some (set_state now SessionState.applying s) :=
      alGet_set_self _ _ _
    have hsess : (apply_telegram_suggestions now sid req true fcount
        st).1.sessions = alErase sid (alSet sid
          (set_state now SessionState.applying s) st.sessions) := by
      rw [hdel, delete_session_sessions]
    refine ⟨by simp [apply_telegram_suggestions, hget], ?_, ?_⟩
    · rw [hsess]
      exact alGet_erase_self _ _
    · intro n2
      have : alGet sid (apply_telegram_suggestions now sid req true fcount
          st).1.sessions = none := by
        rw [hsess]
        exact alGet_erase_self _ _
      simp [get_session, this]
  · have hst : (apply_telegram_suggestions now sid req false fcount st).1
        = { st with sessions := (alSet sid
            (set_state now SessionState.reviewing
              (set_state now SessionState.applying s))
            (alSet sid (set_state now SessionState.applying s)
              st.sessions)) } := by
      simp [apply_telegram_suggestions, hget]
    have hfind : alGet sid (apply_telegram_suggestions now sid req false
        fcount st).1.sessions
        = some (set_state now SessionState.reviewing
            (set_state now SessionState.applying s)) := by
      rw [hst]
      exact alGet_set_self _ _ _
    have hnexp : is_expired now (set_state now SessionState.reviewing
        (set_state now SessionState.applying s)) = false := by
      simp [set_state, touch, is_expired]
    refine ⟨by simp [apply_telegram_suggestions, hget], hfind, rfl, rfl, ?_⟩
    simp [get_session, hfind, hnexp]

theorem c7_witness :
    ((apply_telegram_suggestions 5 "sid1" [("n", "t")] true 0
        ⟨[("sid1", sessionIdle)], [(7, "sid1")]⟩).2 = some (true, 1) ∧
      alGet "sid1" (apply_telegram_suggestions 5 "sid1" [("n", "t")] true 0
        ⟨[("sid1", sessionIdle)], [(7, "sid1")]⟩).1.sessions = none ∧
      ∀ n2 : Nat, (get_session n2 "sid1" (apply_telegram_suggestions 5 "sid1"
        [("n", "t")] true 0
        ⟨[("sid1", sessionIdle)], [(7, "sid1")]⟩).1).2 = none) ∧
    ((apply_telegram_suggestions 5 "sid1" [("n", "t")] false 0
        ⟨[("sid1", sessionIdle)], [(7, "sid1")]⟩).2 = some (false, 0) ∧
      alGet "sid1" (apply_telegram_suggestions 5 "sid1" [("n", "t")] false 0
          ⟨[("sid1", sessionIdle)], [(7, "sid1")]⟩).1.sessions
        = some (set_state 5 SessionState.reviewing
            (set_state 5 SessionState.applying sessionIdle)) ∧
      (set_state 5 SessionState.reviewing
        (set_state 5 SessionState.applying sessionIdle)).approved
        = sessionIdle.approved ∧
      (set_state 5 SessionState.reviewing
        (set_state 5 SessionState.applying sessionIdle)).state
        = SessionState.reviewing ∧
      (get_session 5 "sid1" (apply_telegram_suggestions 5 "sid1" [("n", "t")]
          false 0 ⟨[("sid1", sessionIdle)], [(7, "sid1")]⟩).1).2
        = some (set_state 5 SessionState.reviewing
            (set_state 5 SessionState.applying sessionIdle))) :=
  c7_apply_success_deletes_failure_reverts
    ⟨[("sid1", sessionIdle)], [(7, "sid1")]⟩ 5 "sid1" sessionIdle
    [("n", "t")] 0 rfl (by decide)

/-- C10.  `unapprove_note` calls `touch` unconditionally, so on every call
it sets `updated_at := now` and `expires_at := now + 30min`, even when the
note has no approval; all other fields (state, notes, suggestions, user,
names, ids, timestamps of creation, message id, date range) are unchanged,
and when the note has no approval the approved map is unchanged too. -/
theorem c10_unapprove_always_touches (s : TelegramSession) (now : Nat)
    (nid : String) :
    (unapprove_note now nid s).updated_at = now ∧
    (unapprove_note now nid s).expires_at = some (now + sessionTTL) ∧
    (unapprove_note now nid s).state = s.state ∧
    (unapprove_note now nid s).notes = s.notes ∧
    (unapprove_note now nid s).suggestions = s.suggestions ∧
    (unapprove_note now nid s).user_id = s.user_id ∧
    (unapprove_note now nid s).username = s.username ∧
    (unapprove_note now nid s).session_id = s.session_id ∧
    (unapprove_note now nid s).created_at = s.created_at ∧
    (unapprove_note now nid s).message_id = s.message_id ∧
    (unapprove_note now nid s).date_range = s.date_range ∧
    (alGet nid s.approved = none →
      (unapprove_note now nid s).approved = s.approved) := by
  refine ⟨rfl, rfl, rfl, rfl, rfl, rfl, rfl, rfl, rfl, rfl, rfl, ?_⟩
  intro h
  unfold unapprove_note touch
  simp [alContains, h]

theorem c10_witness :
    (unapprove_note 9 "m" sessionIdle).updated_at = 9 ∧
    (unapprove_note 9 "m" sessionIdle).expires_at = some (9 + sessionTTL) ∧
    (unapprove_note 9 "m" sessionIdle).state = sessionIdle.state ∧
    (unapprove_note 9 "m" sessionIdle).notes = sessionIdle.notes ∧
    (unapprove_note 9 "m" sessionIdle).suggestions
      = sessionIdle.suggestions ∧
    (unapprove_note 9 "m" sessionIdle).user_id = sessionIdle.user_id ∧
    (unapprove_note 9 "m" sessionIdle).username = sessionIdle.username ∧
    (unapprove_note 9 "m" sessionIdle).session_id
      = sessionIdle.session_id ∧
    (unapprove_note 9 "m" sessionIdle).created_at
      = sessionIdle.created_at ∧
    (unapprove_note 9 "m" sessionIdle).message_id
      = sessionIdle.message_id ∧
    (unapprove_note 9 "m" sessionIdle).date_range
      = sessionIdle.date_range ∧
    (alGet "m" sessionIdle.approved = none →
      (unapprove_note 9 "m" sessionIdle).approved
        = sessionIdle.approved) :=
  c10_unapprove_always_touches sessionIdle 9 "m"

/-!
Date parser model: `date_parser.DateParser` (date_parser.py).  Python
`date` values are integers counting days since 1970-01-01; `timedelta
(days=k)` is integer subtraction.  The external `dateparser` library is
abstracted by two function parameters: `dp` for the call in
`_parse_with_dateparser` and `dps` for the call in `_parse_single_date`
(they use different settings in the source).  The regex searches of
`_parse_patterns` are implemented as explicit leftmost searches over the
character list with the same alternation order as the patterns.
-/

/-- Characters of Python's default `str.strip` / regex `\s` class. -/
def isSpaceCh (c : Char) : Bool :=
  c == ' ' || c == '\t' || c == '\n' || c == '\r' || c == '\x0b' || c == '\x0c'

/-- Model of `text.lower().strip()` (date_parser.py line 34).  `Char.toLower`
lowers ASCII letters; the accented letters in the Spanish keywords are
already lower-case in the patterns. -/
def lowerTrim (s : String) : String :=
  String.mk ((((s.data.map Char.toLower).dropWhile isSpaceCh).reverse.dropWhile
    isSpaceCh).reverse)

/-- Gregorian leap-year test, as in Python's `datetime`. -/
def isLeapYear (y : Int) : Bool :=
  (y % 4 == 0 && y % 100 != 0) || y % 400 == 0

/-- Days in a month, as validated by `date.fromisoformat`. -/
def daysInMonth (y : Int) (m : Nat) : Nat :=
  if m = 2 then (if isLeapYear y then 29 else 28)
  else if m = 4 ∨ m = 6 ∨ m = 9 ∨ m = 11 then 30
  else 31

/-- Days since 1970-01-01 of the civil date `y-m-d` (the standard
days-from-civil algorithm); the integer model of a Python `date`. -/
def daysFromCivil (y : Int) (m d : Nat) : Int :=
  let y1 : Int := if m ≤ 2 then y - 1 else y
  let era : Int := Int.fdiv y1 400
  let yoe : Int := y1 - era * 400
  let mp : Int := (Int.ofNat m + 9) % 12
  let doy : Int := Int.fdiv (153 * mp + 2) 5 + (Int.ofNat d - 1)
  let doe : Int := yoe * 365 + Int.fdiv yoe 4 - Int.fdiv yoe 100 + doy
  era * 146097 + doe - 719468

/-- Numeric value of a decimal digit character. -/
def digitVal (c : Char) : Nat := c.toNat - '0'.toNat

/-- Natural number denoted by a digit run (`int(match.group(1))`). -/
def natOfDigits (ds : List Char) : Nat :=
  ds.foldl (fun a c => 10 * a + digitVal c) 0

/-- Model of `date.fromisoformat` on the `YYYY-MM-DD` shape: parse and
validate the calendar date, `none` for the `ValueError` cases. -/
def dateFromISO (s : String) : Option Int :=
  match s.data with
  | [y1, y2, y3, y4, h1, m1, m2, h2, d1, d2] =>
    if y1.isDigit && y2.isDigit && y3.isDigit && y4.isDigit && h1 == '-' &&
        m1.isDigit && m2.isDigit && h2 == '-' && d1.isDigit && d2.isDigit then
      let y : Nat := 1000 * digitVal y1 + 100 * digitVal y2 +
        10 * digitVal y3 + digitVal y4
      let m : Nat := 10 * digitVal m1 + digitVal m2
      let d : Nat := 10 * digitVal d1 + digitVal d2
      if 1 ≤ y && y ≤ 9999 && 1 ≤ m && m ≤ 12 && 1 ≤ d &&
          d ≤ daysInMonth (Int.ofNat y) m then
        some (daysFromCivil (Int.ofNat y) m d)
      else none
    else none
  | _ => none

/-- Literal matcher: when `pat` is a prefix of `cs`, the remainder. -/
def matchLit (pat cs : List Char) : Option (List Char) :=
  match pat, cs with
  | [], rest => some rest
  | p :: ps, c :: rest => if c = p then matchLit ps rest else none
  | _ :: _, [] => none

/-- Greedy one-or-more character-class matcher (`\s+`, `\d+`): the matched
run and the remainder, `none` when the first character does not match. -/
def takeWhile1 (p : Char → Bool) (cs : List Char) :
    Option (List Char × List Char) :=
  match cs with
  | [] => none
  | c :: _ =>
    if p c then some (cs.takeWhile p, cs.dropWhile p) else none

/-- One alternative of the "last N days" pattern anchored at the current
position: keyword, `\s+`, `(\d+)`, `\s+`, day-word. -/
def lastNDaysTail (kw : List Char) (cs : List Char) : Option Nat := do
  let r1 ← matchLit kw cs
  let (_, r2) ← takeWhile1 isSpaceCh r1
  let (ds, r3) ← takeWhile1 Char.isDigit r2
  let (_, r4) ← takeWhile1 isSpaceCh r3
  let _ ← (matchLit "días".data r4).orElse (fun _ =>
    (matchLit "día".data r4).orElse (fun _ =>
      (matchLit "days".data r4).orElse (fun _ => matchLit "day".data r4)))
  some (natOfDigits ds)

/-- The pattern `(?:últimos?|last)\s+(\d+)\s+(?:días?|days?)` anchored at
the current position, with the regex alternation order. -/
def lastNDaysAt (cs : List Char) : Option Nat :=
  (lastNDaysTail "últimos".data cs).orElse (fun _ =>
    (lastNDaysTail "último".data cs).orElse (fun _ =>
      lastNDaysTail "last".data cs))

/-- `re.search` for the "last N days" pattern: leftmost position wins. -/
def searchLastNDays : List Char → Option Nat
  | [] => none
  | c :: cs =>
    match lastNDaysAt (c :: cs) with
    | some n => some n
    | none => searchLastNDays cs

/-- After the lazy group `(.+?)`: try `\s+hasta\s+(.+)` here (`.` does not
match a newline; the final group must be non-empty). -/
def tryHasta (rest : List Char) : Option (List Char) := do
  let (_, r1) ← takeWhile1 isSpaceCh rest
  let r2 ← matchLit "hasta".data r1
  let (_, r3) ← takeWhile1 isSpaceCh r2
  if r3.isEmpty then none else some r3

/-- Lazy scan for `(.+?)\s+hasta\s+(.+)`: grow the first group one
character at a time (shortest match first, newline stops it), testing the
remainder of the pattern at each boundary. -/
def hastaSplit (xAcc rest : List Char) : Option (List Char × List Char) :=
  match rest with
  | [] => none
  | c :: rs =>
    if c = '\n' then none
    else
      match tryHasta rs with
      | some y => some (xAcc ++ [c], y)
      | none => hastaSplit (xAcc ++ [c]) rs

/-- The pattern `desde\s+(.+?)\s+hasta\s+(.+)` anchored at the current
position. -/
def desdeHastaAt (cs : List Char) : Option (List Char × List Char) := do
  let r1 ← matchLit "desde".data cs
  let (_, r2) ← takeWhile1 isSpaceCh r1
  hastaSplit [] r2

/-- `re.search` for the "desde X hasta Y" pattern. -/
def searchDesdeHasta : List Char → Option (List Char × List Char)
  | [] => none
  | c :: cs =>
    match desdeHastaAt (c :: cs) with
    | some p => some p
    | none => searchDesdeHasta cs

/-- Exactly `n` decimal digits (`\d{n}`): the digits and the remainder. -/
def grabDigits : Nat → List Char → Option (List Char × List Char)
  | 0, cs => some ([], cs)
  | _ + 1, [] => none
  | n + 1, c :: cs =>
    if c.isDigit then
      match grabDigits n cs with
      | some (ds, r) => some (c :: ds, r)
      | none => none
    else none

/-- One `\d{4}-\d{2}-\d{2}` capture anchored at the current position. -/
def isoDateAt (cs : List Char) : Option (List Char × List Char) := do
  let (d1, r1) ← grabDigits 4 cs
  let r2 ← matchLit ['-'] r1
  let (d2, r3) ← grabDigits 2 r2
  let r4 ← matchLit ['-'] r3
  let (d3, r5) ← grabDigits 2 r4
  some (d1 ++ '-' :: d2 ++ '-' :: d3, r5)

/-- The pattern `(\d{4}-\d{2}-\d{2})\s+(\d{4}-\d{2}-\d{2})` anchored at the
current position: the two captured date strings. -/
def isoPairAt (cs : List Char) : Option (List Char × List Char) := do
  let (s1, r1) ← isoDateAt cs
  let (_, r2) ← takeWhile1 isSpaceCh r1
  let (s2, _) ← isoDateAt r2
  some (s1, s2)

/-- `re.search` for the two-ISO-dates pattern. -/
def searchISOPair : List Char → Option (List Char × List Char)
  | [] => none
  | c :: cs =>
    match isoPairAt (c :: cs) with
    | some p => some p
    | none => searchISOPair cs

/-- Model of `telegram_models.DateParseResult`. -/
structure DateParseResult where
  success : Bool
  start_date : Option Int
  end_date : Option Int
  error_message : Option String
deriving DecidableEq, Repr

/-- Python `date.weekday()` on the integer model: Monday = 0; ordinal 0
(1970-01-01) was a Thursday. -/
def weekday (d : Int) : Int := (d + 3) % 7

/-- Model of `DateParser._parse_special_cases` (date_parser.py lines
56-93). -/
def parse_special_cases (today : Int) (t : String) : Option DateParseResult :=
  if t = "hoy" ∨ t = "today" then
    some ⟨true, some today, some today, none⟩
  else if t = "ayer" ∨ t = "yesterday" then
    some ⟨true, some (today - 1), some (today - 1), none⟩
  else if t = "esta semana" ∨ t = "this week" then
    some ⟨true, some (today - weekday today), some today, none⟩
  else if t = "semana pasada" ∨ t = "last week" then
    some ⟨true, some (today - (weekday today + 7)),
      some (today - (weekday today + 7) + 6), none⟩
  else none

/-- Model of `DateParser._parse_single_date` (lines 167-187): strip, try
ISO, then the external `dateparser` fallback. -/
def parse_single_date (dps : String → Option Int) (x : List Char) :
    Option Int :=
  let xs := String.mk (((x.dropWhile isSpaceCh).reverse.dropWhile
    isSpaceCh).reverse)
  match dateFromISO xs with
  | some d => some d
  | none => dps xs

/-- Model of `DateParser._parse_patterns` (lines 95-142): the three regex
strategies in source order; a matched "desde X hasta Y" whose dates fail to
resolve falls through to the ISO pattern, and an ISO match whose
`fromisoformat` raises falls through to the caller. -/
def parse_patterns (today : Int) (dps : String → Option Int) (t : String) :
    Option DateParseResult :=
  match searchLastNDays t.data with
  | some n =>
    some ⟨true, some (today - (Int.ofNat n - 1)), some today, none⟩
  | none =>
    match
      (match searchDesdeHasta t.data with
      | some (x, y) =>
        match parse_single_date dps x, parse_single_date dps y with
        | some d1, some d2 => some ⟨true, some d1, some d2, none⟩
        | _, _ => none
      | none => none : Option DateParseResult)
    with
    | some r => some r
    | none =>
      match searchISOPair t.data with
      | some (s1, s2) =>
        match dateFromISO (String.mk s1), dateFromISO (String.mk s2) with
        | some d1, some d2 => some ⟨true, some d1, some d2, none⟩
        | _, _ => none
      | none => none

/-- Model of `DateParser._parse_with_dateparser` (lines 144-165): the
external library call. -/
def parse_with_dateparser (dp : String → Option Int) (t : String) :
    Option DateParseResult :=
  match dp t with
  | some d => some ⟨true, some d, some d, none⟩
  | none => none

/-- Model of `DateParser.parse` (lines 22-54): lower/strip, then the
ordered chain special cases → regex patterns → dateparser → failure with
the example-bearing error message (built from the original `text`). -/
def parse (today : Int) (dp dps : String → Option Int) (text : String) :
    DateParseResult :=
  let t := lowerTrim text
  match parse_special_cases today t with
  | some r => r
  | none =>
    match parse_patterns today dps t with
    | some r => r
    | none =>
      match parse_with_dateparser dp t with
      | some r => r
      | none =>
        ⟨false, none, none,
          some ("No pude entender \x27" ++ text ++
            "\x27. Prueba con: hoy, ayer, últimos 3 días, 2024-02-01 2024-02-05")⟩

/-- C8.  Date-resolution scenarios of `DateParser.parse`: "hoy" resolves to
(today, today); "ayer" to (today-1, today-1); "últimos 3 días" to the
inclusive 3-day window (today-2, today); two ISO dates resolve to exactly
those dates; and an unparseable string (one the external dateparser also
rejects) fails with a non-empty error message. -/
theorem c8_date_resolution_scenarios (today : Int)
    (dp dps : String → Option Int) (hdp : dp "xyz" = none) :
    parse today dp dps "hoy" = ⟨true, some today, some today, none⟩ ∧
    parse today dp dps "ayer"
      = ⟨true, some (today - 1), some (today - 1), none⟩ ∧
    parse today dp dps "últimos 3 días"
      = ⟨true, some (today - 2), some today, none⟩ ∧
    parse today dp dps "2024-02-01 2024-02-05"
      = ⟨true, some (daysFromCivil 2024 2 1), some (daysFromCivil 2024 2 5),
          none⟩ ∧
    (parse today dp dps "xyz").success = false ∧
    ∃ msg : String, (parse today dp dps "xyz").error_message = some msg ∧
      msg.length ≠ 0 := by
  have hlt : lowerTrim "xyz" = "xyz" := by decide
  have hx : parse today dp dps "xyz"
      = ⟨false, none, none, some ("No pude entender \x27" ++ "xyz" ++
          "\x27. Prueba con: hoy, ayer, últimos 3 días, 2024-02-01 2024-02-05")⟩ := by
    simp only [parse, hlt]
    rw [show parse_special_cases today "xyz" = none from rfl]
    rw [show parse_patterns today dps "xyz" = none from rfl]
    simp only [parse_with_dateparser, hdp]
  refine ⟨rfl, rfl, rfl, rfl, by rw [hx], ?_⟩
  refine ⟨"No pude entender \x27" ++ "xyz" ++
    "\x27. Prueba con: hoy, ayer, últimos 3 días, 2024-02-01 2024-02-05",
    by rw [hx], by decide⟩

theorem c8_witness :
    parse 0 (fun _ => none) (fun _ => none) "hoy"
      = ⟨true, some 0, some 0, none⟩ ∧
    parse 0 (fun _ => none) (fun _ => none) "ayer"
      = ⟨true, some (0 - 1), some (0 - 1), none⟩ ∧
    parse 0 (fun _ => none) (fun _ => none) "últimos 3 días"
      = ⟨true, some (0 - 2), some 0, none⟩ ∧
    parse 0 (fun _ => none) (fun _ => none) "2024-02-01 2024-02-05"
      = ⟨true, some (daysFromCivil 2024 2 1), some (daysFromCivil 2024 2 5),
          none⟩ ∧
    (parse 0 (fun _ => none) (fun _ => none) "xyz").success = false ∧
    ∃ msg : String,
      (parse 0 (fun _ => none) (fun _ => none) "xyz").error_message
        = some msg ∧ msg.length ≠ 0 :=
  c8_date_resolution_scenarios 0 (fun _ => none) (fun _ => none) rfl

/-!
Model of `TanaClient.is_parent_note` (tana_client.py lines 130-170).
-/

/-- Regex `\w` on the ASCII range (the breadcrumb titles in play are
ASCII): letters, digits, underscore. -/
def isWordCh (c : Char) : Bool := c.isAlphanum || c == '_'

/-- The day-node pattern `^\d{4}-\d{2}-\d{2} - \w+$` of `re.match` with an
implicit end anchor via the full-string check (tana_client.py line 154;
`re.match` anchors at the start and the trailing `$` at the end). -/
def isDayPattern (s : String) : Bool :=
  match s.data with
  | y1 :: y2 :: y3 :: y4 :: h1 :: m1 :: m2 :: h2 :: d1 :: d2 ::
      sp1 :: dash :: sp2 :: rest =>
    y1.isDigit && y2.isDigit && y3.isDigit && y4.isDigit && h1 == '-' &&
    m1.isDigit && m2.isDigit && h2 == '-' && d1.isDigit && d2.isDigit &&
    sp1 == ' ' && dash == '-' && sp2 == ' ' &&
    !rest.isEmpty && rest.all isWordCh
  | _ => false

/-- Remove every occurrence of the literal `<u>` (left to right), as
`parent.replace("<u>", "")`. -/
def stripUOpen : List Char → List Char
  | '<' :: 'u' :: '>' :: rest => stripUOpen rest
  | c :: cs => c :: stripUOpen cs
  | [] => []

/-- Remove every occurrence of the literal `</u>`, as
`.replace("</u>", "")`. -/
def stripUClose : List Char → List Char
  | '<' :: '/' :: 'u' :: '>' :: rest => stripUClose rest
  | c :: cs => c :: stripUClose cs
  | [] => []

/-- The cleaning step at tana_client.py line 166:
`parent.replace("<u>", "").replace("</u>", "").strip()`. -/
def cleanParent (s : String) : String :=
  String.mk ((((stripUClose (stripUOpen s.data)).dropWhile
    isSpaceCh).reverse.dropWhile isSpaceCh).reverse)

/-- The fixed structural-header set `IGNORED_HEADERS` (lines 144-151). -/
def ignoredHeaders : List String :=
  ["Daily Preparation", "Action: Plan for Today", "Inbox", "Agenda",
    "Tasks", "Notes"]

/-- The loop of `is_parent_note` over the reversed breadcrumb (lines
158-170): a day node means parent; a non-ignored ancestor title means
child; exhausting the breadcrumb means not a parent. -/
def isParentGo : List String → Bool
  | [] => false
  | p :: rest =>
    if isDayPattern p then true
    else if cleanParent p ∈ ignoredHeaders then isParentGo rest
    else false

/-- Model of `TanaClient.is_parent_note`: empty breadcrumbs are rejected
up front, then the reversed breadcrumb is walked. -/
def is_parent_note (n : Note) : Bool :=
  if n.breadcrumb.isEmpty then false
  else isParentGo n.breadcrumb.reverse

theorem isParentGo_find (l : List String) :
    isParentGo l
      = (match l.find? (fun p => isDayPattern p ||
            !(decide (cleanParent p ∈ ignoredHeaders))) with
        | some p => isDayPattern p
        | none => false) := by
  induction l with
  | nil => rfl
  | cons p rest ih =>
    by_cases hd : isDayPattern p = true
    · have hpred : (fun q => isDayPattern q ||
          !(decide (cleanParent q ∈ ignoredHeaders))) p = true := by
        simp [hd]
      rw [List.find?_cons_of_pos rest hpred]
      simp [isParentGo, hd]
    · have hd' : isDayPattern p = false := by
        revert hd
        cases isDayPattern p <;> simp
      by_cases hi : cleanParent p ∈ ignoredHeaders
      · have hpred : (fun q => isDayPattern q ||
            !(decide (cleanParent q ∈ ignoredHeaders))) p = false := by
          simp [hd', hi]
        rw [List.find?_cons_of_neg rest (by simp [hpred])]
        have hgo : isParentGo (p :: rest) = isParentGo rest := by
          simp [isParentGo, hd', hi]
        rw [hgo, ih]
      · have hpred : (fun q => isDayPattern q ||
            !(decide (cleanParent q ∈ ignoredHeaders))) p = true := by
          simp [hd', hi]
        rw [List.find?_cons_of_pos rest hpred]
        simp [isParentGo, hd', hi]

/-- C9.  `is_parent_note` walks the breadcrumb from its last element toward
the first, skipping the fixed structural header names, and returns true iff
a title matching the day-heading pattern `YYYY-MM-DD - <weekday>` is
reached before any other ancestor title: the first element of the reversed
breadcrumb that is a day node or a non-skipped title decides the result.
In particular the one-element day breadcrumb is a parent and the nested
breadcrumb is not. -/
theorem c9_is_parent_note_characterization :
    (∀ n : Note, is_parent_note n
      = (match n.breadcrumb.reverse.find? (fun p => isDayPattern p ||
            !(decide (cleanParent p ∈ ignoredHeaders))) with
        | some p => isDayPattern p
        | none => false)) ∧
    is_parent_note ⟨"x", "note", "", ["2024-02-01 - Thursday"], none⟩
      = true ∧
    is_parent_note ⟨"x", "note", "",
      ["2024-02-01 - Thursday", "Some Note", "Sub Note"], none⟩ = false := by
  refine ⟨?_, by decide, by decide⟩
  intro n
  rw [← isParentGo_find]
  unfold is_parent_note
  cases h : n.breadcrumb with
  | nil => simp [h, isParentGo]
  | cons a l => simp [h]
